import Mathlib

/-
Verification of the MonkeyResearcher research pipeline
(local-deep-researcher: graph.py, utils.py, tool_manager.py).

Shallow embedding conventions:
- Python strings are Lean `String` (operated on via `List Char`).
- Python exceptions are modelled with `Except PyErr`; a `try/except` block
  becomes a `match` on the wrapped computation.
- External effects (the SearXNG backend, the MCP paper server, LLM chat
  completions, page fetches) are oracles supplied through environment
  records; the code that consumes them is translated faithfully.
- Unbounded Python loops (the `while` in strip_thinking_tokens, the graph
  execution loop) are fueled: `none` means the loop did not finish within
  the given fuel, and theorems about completed runs quantify over all fuels.
-/

/-- Single-quote character as a string (used in error messages of the source). -/
def squote : String := (Char.ofNat 39).toString

/-- Python `str.find` helper: index of the first occurrence of `pat` in the suffix,
`i` being the index of the head of the suffix. -/
def findSubAux (pat : List Char) : List Char → Nat → Option Nat
  | [], i => if pat = [] then some i else none
  | c :: rest, i =>
    if pat.isPrefixOf (c :: rest) then some i else findSubAux pat rest (i + 1)

/-- Python `s.find(pat)`, returning `none` instead of `-1`. -/
def pyFind (s pat : String) : Option Nat :=
  findSubAux pat.toList s.toList 0

/-- Python `pat in s` (substring containment). -/
def containsSub (s pat : String) : Bool :=
  (pyFind s pat).isSome

/-- Helper scanning for the last occurrence of `pat`. -/
def rfindAux (pat : List Char) : List Char → Nat → Option Nat → Option Nat
  | [], _, acc => acc
  | c :: rest, i, acc =>
    rfindAux pat rest (i + 1) (if pat.isPrefixOf (c :: rest) then some i else acc)

/-- Python `s.rfind(pat)` for non-empty `pat`, returning `none` instead of `-1`. -/
def pyRfind (s pat : String) : Option Nat :=
  rfindAux pat.toList s.toList 0 none

/-- Python slice `s[a:b]`. -/
def pySlice (s : String) (a b : Nat) : String :=
  ((s.toList.drop a).take (b - a)).asString

/-- Python whitespace (`\s`, ASCII range): space, tab, newline, carriage return,
vertical tab, form feed. -/
def pyIsSpace (c : Char) : Bool :=
  c = ' ' || c = '\t' || c = '\n' || c = '\r' || c = Char.ofNat 11 || c = Char.ofNat 12

/-- Python `str.strip()` (ASCII whitespace). -/
def pyStrip (s : String) : String :=
  (((s.toList.dropWhile pyIsSpace).reverse.dropWhile pyIsSpace).reverse).asString

/-- ASCII lower-casing of a whole string, for `re.IGNORECASE` matching and `.lower()`. -/
def toLowerStr (s : String) : String :=
  (s.toList.map Char.toLower).asString

/-- Opening thinking tag searched by strip_thinking_tokens. -/
def think_open : List Char := "<think>".toList

/-- Closing thinking tag searched by strip_thinking_tokens. -/
def think_close : List Char := "</think>".toList

/-- Loop guard of strip_thinking_tokens:
`while "<think>" in text and "</think>" in text`. -/
def strip_guard (t : List Char) : Bool :=
  (findSubAux think_open t 0).isSome && (findSubAux think_close t 0).isSome

/-- One iteration of the strip_thinking_tokens loop body:
`start = text.find("<think>"); end = text.find("</think>") + len("</think>");
text = text[:start] + text[end:]`. Only evaluated under the guard, so the
`getD 0` defaults are never exercised. -/
def strip_once (t : List Char) : List Char :=
  let start := (findSubAux think_open t 0).getD 0
  let stop := (findSubAux think_close t 0).getD 0 + 8
  t.take start ++ t.drop stop

/-- Fueled unfolding of the `while` loop of strip_thinking_tokens; `none` means
the loop has not terminated within `fuel` iterations. -/
def strip_think_aux : Nat → List Char → Option (List Char)
  | 0, t => if strip_guard t then none else some t
  | fuel + 1, t =>
    if strip_guard t then strip_think_aux fuel (strip_once t) else some t

/-- utils.strip_thinking_tokens, fueled. -/
def strip_thinking_tokens (fuel : Nat) (text : String) : Option String :=
  (strip_think_aux fuel text.toList).map List.asString

/-- JSON values as produced by `json.loads` on the subset of JSON this
pipeline consumes (no floats; numbers are integers). -/
inductive JVal where
  | jnull
  | jbool (b : Bool)
  | jnum (n : Int)
  | jstr (s : String)
  | jarr (xs : List JVal)
  | jobj (fields : List (String × JVal))

/-- JSON insignificant whitespace skipping. -/
def jskip (l : List Char) : List Char :=
  l.dropWhile (fun c => c = ' ' || c = '\t' || c = '\n' || c = '\r')

/-- Parse the body of a JSON string literal (opening quote already consumed).
Handles the simple escapes; `\uXXXX` is not modelled (the pipeline never
produces it in the inputs under study). -/
def parseStrBody : Nat → List Char → List Char → Option (String × List Char)
  | 0, _, _ => none
  | fuel + 1, acc, l =>
    match l with
    | [] => none
    | c :: rest =>
      if c = Char.ofNat 34 then some (acc.reverse.asString, rest)
      else if c = Char.ofNat 92 then
        match rest with
        | [] => none
        | e :: rest2 =>
          if e = Char.ofNat 34 then parseStrBody fuel (Char.ofNat 34 :: acc) rest2
          else if e = Char.ofNat 92 then parseStrBody fuel (Char.ofNat 92 :: acc) rest2
          else if e = '/' then parseStrBody fuel ('/' :: acc) rest2
          else if e = 'n' then parseStrBody fuel ('\n' :: acc) rest2
          else if e = 't' then parseStrBody fuel ('\t' :: acc) rest2
          else if e = 'r' then parseStrBody fuel ('\r' :: acc) rest2
          else if e = 'b' then parseStrBody fuel (Char.ofNat 8 :: acc) rest2
          else if e = 'f' then parseStrBody fuel (Char.ofNat 12 :: acc) rest2
          else none
      else if c.val < 32 then none
      else parseStrBody fuel (c :: acc) rest

/-- Parse a run of decimal digits. -/
def parseNatLit (l : List Char) : Option (Nat × List Char) :=
  let ds := l.takeWhile Char.isDigit
  if ds = [] then none
  else some (ds.foldl (fun n c => n * 10 + (c.toNat - 48)) 0, l.drop ds.length)

/-- Reject a numeric literal continued by a fractional part or exponent
(floats are outside the modelled JSON subset). -/
def numBreaks (l : List Char) : Bool :=
  match l with
  | [] => true
  | c :: _ => !(c = '.' || c = 'e' || c = 'E' || c.isDigit)

mutual

/-- Recursive-descent JSON value parser, fueled. -/
def parseVal : Nat → List Char → Option (JVal × List Char)
  | 0, _ => none
  | f + 1, l0 =>
    match jskip l0 with
    | [] => none
    | c :: rest =>
      if c = Char.ofNat 34 then
        (parseStrBody (f + 1) [] rest).map (fun p => (JVal.jstr p.1, p.2))
      else if c = Char.ofNat 123 then
        match jskip rest with
        | c2 :: r2 =>
          if c2 = Char.ofNat 125 then some (JVal.jobj [], r2)
          else parseObjFields f (c2 :: r2) []
        | [] => none
      else if c = Char.ofNat 91 then
        match jskip rest with
        | c2 :: r2 =>
          if c2 = Char.ofNat 93 then some (JVal.jarr [], r2)
          else parseArrItems f (c2 :: r2) []
        | [] => none
      else if c = 't' then
        if "rue".toList.isPrefixOf rest then some (JVal.jbool true, rest.drop 3) else none
      else if c = 'f' then
        if "alse".toList.isPrefixOf rest then some (JVal.jbool false, rest.drop 4) else none
      else if c = 'n' then
        if "ull".toList.isPrefixOf rest then some (JVal.jnull, rest.drop 3) else none
      else if c = '-' then
        match parseNatLit rest with
        | some (n, r) => if numBreaks r then some (JVal.jnum (-(n : Int)), r) else none
        | none => none
      else if c.isDigit then
        match parseNatLit (c :: rest) with
        | some (n, r) => if numBreaks r then some (JVal.jnum (n : Int), r) else none
        | none => none
      else none

/-- Parse the members of a non-empty JSON object (after the `{`). -/
def parseObjFields : Nat → List Char → List (String × JVal) → Option (JVal × List Char)
  | 0, _, _ => none
  | f + 1, l, acc =>
    match jskip l with
    | c :: rest =>
      if c = Char.ofNat 34 then
        match parseStrBody (f + 1) [] rest with
        | some (key, r1) =>
          match jskip r1 with
          | ':' :: r2 =>
            match parseVal f r2 with
            | some (v, r3) =>
              match jskip r3 with
              | ',' :: r4 => parseObjFields f r4 (acc ++ [(key, v)])
              | c2 :: r4 =>
                if c2 = Char.ofNat 125 then some (JVal.jobj (acc ++ [(key, v)]), r4)
                else none
              | [] => none
            | none => none
          | _ => none
        | none => none
      else none
    | [] => none

/-- Parse the items of a non-empty JSON array (after the `[`). -/
def parseArrItems : Nat → List Char → List JVal → Option (JVal × List Char)
  | 0, _, _ => none
  | f + 1, l, acc =>
    match parseVal f l with
    | some (v, r) =>
      match jskip r with
      | ',' :: r2 => parseArrItems f r2 (acc ++ [v])
      | c2 :: r2 =>
        if c2 = Char.ofNat 93 then some (JVal.jarr (acc ++ [v]), r2)
        else none
      | [] => none
    | none => none

end

/-- Python `json.loads`: one JSON document, nothing but whitespace after it. -/
def jsonLoads (s : String) : Option JVal :=
  match parseVal (2 * s.length + 8) s.toList with
  | some (v, rest) => if jskip rest = [] then some v else none
  | none => none

/-- Python dict lookup on a parsed object; later duplicate keys shadow
earlier ones, as in `json.loads`. -/
def objGet (fs : List (String × JVal)) (k : String) : Option JVal :=
  (fs.reverse.find? (fun p => p.1 = k)).map (fun p => p.2)

/-- Python truthiness (`if value:`) of a JSON-decoded value. -/
def pyTruthy : JVal → Bool
  | JVal.jnull => false
  | JVal.jbool b => b
  | JVal.jnum n => n ≠ 0
  | JVal.jstr s => s ≠ ""
  | JVal.jarr xs => !xs.isEmpty
  | JVal.jobj fs => !fs.isEmpty

/-- Coercion of a decoded value into the string slot it is assigned to.
The source assigns the decoded object unchanged; every claim under study
only exercises the string case, the other branches approximate Python
`str()` rendering. -/
def pyToString : JVal → String
  | JVal.jstr s => s
  | JVal.jnum n => toString n
  | JVal.jbool true => "True"
  | JVal.jbool false => "False"
  | JVal.jnull => "None"
  | JVal.jarr _ => "[...]"
  | JVal.jobj _ => "\x7b...\x7d"

/-- Python exception value: `runtime` is true for `RuntimeError`, false for
any other exception class; `msg` is `str(e)`. -/
structure PyErr where
  runtime : Bool
  msg : String
deriving DecidableEq

/-- One raw hit as returned by `SearxSearchWrapper.results` (all keys optional,
read with `.get` defaults in the source). -/
structure RawHit where
  title : Option String
  link : Option String
  snippet : Option String
deriving DecidableEq

/-- One paper record from the MCP ArXiv search. -/
structure Paper where
  title : Option String
  pid : Option String
  summary : Option String
  url : Option String
deriving DecidableEq

/-- One processed search result (the dicts flowing through utils.py). The
`content` and `raw_content` keys may be absent in general dicts, hence
`Option`. -/
structure Source where
  url : String
  title : String
  content : Option String
  raw_content : Option String
deriving DecidableEq

/-- Search response shape: a dict with a `results` key. -/
structure ResultSet where
  results : List Source
deriving DecidableEq

/-- Behaviour of the external search endpoints for one coordinator call:
`searxRaw` is what `SearxSearchWrapper.results` does (a list of hits, or an
exception), `mcpRaw` what the MCP paper search does, and `fetchPage` what
`fetch_content_with_beautifulsoup` returns per URL (`none` on failure). -/
structure SearchEnv where
  searxRaw : Except PyErr (List RawHit)
  mcpRaw : Except PyErr (List Paper)
  fetchPage : String → Option String

/-- utils.searxng_search: the whole body sits in a `try`, and the `except`
arm falls through to returning the results accumulated so far, so an
endpoint exception yields `{"results": []}` and is never re-raised. -/
def searxng_search (se : SearchEnv) (_query : String) (_max_results : Nat)
    (fetch_full_page : Bool) : Except PyErr ResultSet :=
  match se.searxRaw with
  | Except.error _ => Except.ok ⟨[]⟩
  | Except.ok hits =>
    Except.ok ⟨hits.map (fun h =>
      let title := h.title.getD "Unknown Title"
      let url := h.link.getD "No URL"
      let content := h.snippet.getD "No content available"
      let raw := if fetch_full_page then
          (match se.fetchPage (h.link.getD "") with
           | some rc => rc
           | none => content)
        else content
      ⟨url, title, some content, some raw⟩)⟩

/-- utils.web_search_only: `try: return searxng_search(...) except: return {"results": []}`. -/
def web_search_only (se : SearchEnv) (query : String) (max_results : Nat)
    (fetch_full_page : Bool) : Except PyErr ResultSet :=
  match searxng_search se query max_results fetch_full_page with
  | Except.ok r => Except.ok r
  | Except.error _ => Except.ok ⟨[]⟩

/-- utils.mcp_search: formats MCP papers into the pipeline result shape;
any exception is caught and yields `{"results": []}`. -/
def mcp_search (se : SearchEnv) (_query : String) (_max_results : Nat) :
    Except PyErr ResultSet :=
  match se.mcpRaw with
  | Except.error _ => Except.ok ⟨[]⟩
  | Except.ok papers =>
    Except.ok ⟨papers.map (fun p =>
      let summary := p.summary.getD "No summary available"
      { url := p.url.getD ("https://arxiv.org/abs/" ++ p.pid.getD ""),
        title := p.title.getD "Unknown Title",
        content := some summary,
        raw_content := some summary })⟩

/-- utils.mcp_search_sync: `try: return asyncio.run(mcp_search(...)) except: return {"results": []}`. -/
def mcp_search_sync (se : SearchEnv) (query : String) (max_results : Nat) :
    Except PyErr ResultSet :=
  match mcp_search se query max_results with
  | Except.ok r => Except.ok r
  | Except.error _ => Except.ok ⟨[]⟩

/-- utils.parallel_search_coordinator: dispatch on the strategy inside a
`try`; the `except` arm falls back to `web_search_only`. -/
def parallel_search_coordinator (se : SearchEnv) (query : String)
    (search_strategy : String) (max_results : Nat) (fetch_full_page : Bool) :
    Except PyErr ResultSet :=
  let selected :=
    if search_strategy = "mcp" then mcp_search_sync se query max_results
    else web_search_only se query max_results fetch_full_page
  match selected with
  | Except.ok r => Except.ok r
  | Except.error _ => web_search_only se query max_results fetch_full_page

/-- Deduplication step of utils.deduplicate_and_format_sources: build the
insertion-ordered `unique_sources` dict keyed by URL, keeping the first
occurrence of each URL. -/
def dedup_sources (l : List Source) : List Source :=
  l.foldl (fun acc s => if acc.any (fun t => t.url = s.url) then acc else acc ++ [s]) []

/-- Formatting of one source block in deduplicate_and_format_sources. -/
def source_block (max_tokens_per_source : Nat) (fetch_full_page : Bool)
    (s : Source) : String :=
  let picked := if fetch_full_page && s.raw_content.isSome then s.raw_content else s.content
  let content := picked.getD "No content available"
  let content :=
    if content.length > max_tokens_per_source then
      (content.toList.take max_tokens_per_source).asString ++ "..."
    else content
  "Source: " ++ s.title ++ "\n===\n" ++ content ++ "\n\n"

/-- utils.deduplicate_and_format_sources on a dict-shaped response (the arm
taking a list of responses concatenates their `results` lists first and is
exercised nowhere in the claims under study). -/
def deduplicate_and_format_sources (resp : ResultSet) (max_tokens_per_source : Nat)
    (fetch_full_page : Bool) : String :=
  "Sources:\n\n" ++
    String.join ((dedup_sources resp.results).map
      (source_block max_tokens_per_source fetch_full_page))

/-- utils.format_sources: bullet list of `title: url` lines. -/
def format_sources (resp : ResultSet) : String :=
  if resp.results.isEmpty then "No sources found."
  else String.intercalate "\n" (resp.results.map (fun s => "• " ++ s.title ++ ": " ++ s.url))

/-- Specification-side deduplication (named from the spec words): keep a
source iff its URL has not been seen earlier, scanning in encounter order. -/
def spec_first_seen_dedup (seen : List String) : List Source → List Source
  | [] => []
  | s :: rest =>
    if seen.contains s.url then spec_first_seen_dedup seen rest
    else s :: spec_first_seen_dedup (s.url :: seen) rest

/-- Word characters for the regex `\b` boundary (`[A-Za-z0-9_]`, with
Unicode letters approximated by `isAlphanum`). -/
def isWordChar (c : Char) : Bool :=
  c.isAlphanum || c = '_'

/-- Regex word-boundary check before a word character at the scan position:
holds at the start of the text or after a non-word character. -/
def boundaryOk : Option Char → Bool
  | none => true
  | some c => !isWordChar c

/-- Consume a literal, returning the remainder. -/
def eatLit (lit : List Char) (l : List Char) : Option (List Char) :=
  if lit.isPrefixOf l then some (l.drop lit.length) else none

/-- Consume the first matching alternative of a regex alternation of literals. -/
def eatAnyLit : List (List Char) → List Char → Option (List Char)
  | [], _ => none
  | w :: ws, l =>
    match eatLit w l with
    | some r => some r
    | none => eatAnyLit ws l

/-- Consume `\s+` (one or more whitespace characters, greedy). -/
def eatSpaces1 (l : List Char) : Option (List Char) :=
  let sp := l.takeWhile pyIsSpace
  if sp.isEmpty then none else some (l.drop sp.length)

/-- Verbs of the first direct-content-request pattern. -/
def verbs1 : List (List Char) :=
  ["analyze".toList, "explain".toList, "summarize".toList, "review".toList, "examine".toList]

/-- Nouns of the first direct-content-request pattern. -/
def nouns1 : List (List Char) :=
  ["url".toList, "link".toList, "page".toList, "website".toList, "article".toList]

/-- Matcher at one position for
`\b(?:analyze|explain|summarize|review|examine)\s+(?:this\s+)?(?:url|link|page|website|article)`.
The optional `this\s+` group is tried greedily, with fallback to matching the
noun directly, as regex backtracking would. -/
def pattern1At (prev : Option Char) (l : List Char) : Bool :=
  boundaryOk prev &&
    (match eatAnyLit verbs1 l with
     | none => false
     | some r1 =>
       match eatSpaces1 r1 with
       | none => false
       | some r2 =>
         (match eatLit "this".toList r2 with
          | some r3 =>
            (match eatSpaces1 r3 with
             | some r4 => (eatAnyLit nouns1 r4).isSome || (eatAnyLit nouns1 r2).isSome
             | none => (eatAnyLit nouns1 r2).isSome)
          | none => (eatAnyLit nouns1 r2).isSome))

/-- Matcher at one position for `\b(?:what|how)\s+(?:is|does|are)\s+(?:this|that)`. -/
def pattern2At (prev : Option Char) (l : List Char) : Bool :=
  boundaryOk prev &&
    (match eatAnyLit ["what".toList, "how".toList] l with
     | none => false
     | some r1 =>
       match eatSpaces1 r1 with
       | none => false
       | some r2 =>
         match eatAnyLit ["is".toList, "does".toList, "are".toList] r2 with
         | none => false
         | some r3 =>
           match eatSpaces1 r3 with
           | none => false
           | some r4 => (eatAnyLit ["this".toList, "that".toList] r4).isSome)

/-- Matcher at one position for `\btell\s+me\s+about\s+(?:this|that)`. -/
def pattern3At (prev : Option Char) (l : List Char) : Bool :=
  boundaryOk prev &&
    (match eatLit "tell".toList l with
     | none => false
     | some r1 =>
       match eatSpaces1 r1 with
       | none => false
       | some r2 =>
         match eatLit "me".toList r2 with
         | none => false
         | some r3 =>
           match eatSpaces1 r3 with
           | none => false
           | some r4 =>
             match eatLit "about".toList r4 with
             | none => false
             | some r5 =>
               match eatSpaces1 r5 with
               | none => false
               | some r6 => (eatAnyLit ["this".toList, "that".toList] r6).isSome)

/-- Matcher at one position for `\b(?:analyze|explain|summarize)\s+(?:https?://|www\.)`. -/
def pattern4At (prev : Option Char) (l : List Char) : Bool :=
  boundaryOk prev &&
    (match eatAnyLit ["analyze".toList, "explain".toList, "summarize".toList] l with
     | none => false
     | some r1 =>
       match eatSpaces1 r1 with
       | none => false
       | some r2 =>
         (eatAnyLit ["https://".toList, "http://".toList, "www.".toList] r2).isSome)

/-- Scan every position of the text (threading the previous character for
`\b`), as `re.search` does. -/
def scanAux (pat : Option Char → List Char → Bool) : Option Char → List Char → Bool
  | prev, [] => pat prev []
  | prev, c :: rest => pat prev (c :: rest) || scanAux pat (some c) rest

/-- Match of `any(re.search(p, user_input, re.IGNORECASE) for p in direct_indicators)`
in utils.analyze_user_input; case-insensitivity realised by lower-casing. -/
def direct_fetch_match (s : String) : Bool :=
  let lw := s.toList.map Char.toLower
  scanAux pattern1At none lw || scanAux pattern2At none lw ||
    scanAux pattern3At none lw || scanAux pattern4At none lw

/-- Characters permitted in the URL body by the regex character class
`[^\s<>"\x27{}|\\^`\[\]]` of analyze_user_input. -/
def urlChar (c : Char) : Bool :=
  !(pyIsSpace c || c = '<' || c = '>' || c = Char.ofNat 34 || c = Char.ofNat 39 ||
    c = Char.ofNat 123 || c = Char.ofNat 125 || c = '|' || c = Char.ofNat 92 ||
    c = '^' || c = Char.ofNat 96 || c = Char.ofNat 91 || c = Char.ofNat 93)

/-- Match of `https?://[urlChar]+` at one position, returning the greedy match. -/
def urlAt (l : List Char) : Option (List Char) :=
  match eatLit "https://".toList l with
  | some r =>
    let body := r.takeWhile urlChar
    if body.isEmpty then none else some ("https://".toList ++ body)
  | none =>
    match eatLit "http://".toList l with
    | some r =>
      let body := r.takeWhile urlChar
      if body.isEmpty then none else some ("http://".toList ++ body)
    | none => none

/-- Leftmost URL match of `re.search(url_pattern, user_input)` (case-sensitive). -/
def findUrl : List Char → Option String
  | [] => none
  | c :: rest =>
    match urlAt (c :: rest) with
    | some u => some u.asString
    | none => findUrl rest

/-- Result dict of utils.analyze_user_input. -/
structure InputAnalysis where
  input_type : String
  url : Option String
  direct_fetch : Bool
  search_query : String
deriving DecidableEq

/-- utils.analyze_user_input: URL regex search plus the four direct-content
indicator patterns; a topic without a URL is always a general query with
`direct_fetch = False`. -/
def analyze_user_input (user_input : String) : InputAnalysis :=
  let direct := direct_fetch_match user_input
  match findUrl user_input.toList with
  | some u =>
    { input_type := "url", url := some u, direct_fetch := direct,
      search_query := if direct then "information about " ++ u else user_input }
  | none =>
    { input_type := "general_query", url := none, direct_fetch := false,
      search_query := user_input }

/-- Strategy chosen by graph.classify_intent from the input analysis: URL
plus direct request gives `url_fetch`; anything else gives `web_search`
(the general-query arm always picks web search, whether or not the optional
intent service succeeds). -/
def classify_strategy (topic : String) : String :=
  let a := analyze_user_input topic
  if a.input_type = "url" then
    (if a.direct_fetch then "url_fetch" else "web_search")
  else "web_search"

/-- Tool kinds of tool_manager.ToolType. -/
inductive ToolType where
  | function
  | external_api
  | mcp_tool
  | python_module
  | openwebui_server
deriving DecidableEq

/-- Registry entry (tool_manager.ToolSpec); only the fields the execution
path reads are carried. -/
structure ToolSpec where
  name : String
  description : String
  tool_type : ToolType
deriving DecidableEq

/-- Uniform result record of tool_manager.ToolExecution. Timing is modelled
with a constant clock, so `execution_time` is `some 0` where the source
measures a duration and `none` where it leaves the field defaulted. -/
structure ToolExecution where
  success : Bool
  result : Option JVal
  error : Option String
  execution_time : Option Nat

/-- Behaviour of the executors execute_tool dispatches to: the OpenWebUI
server call and the three local executor helpers, each of which may raise. -/
structure ToolEnv where
  owExec : String → JVal → Except PyErr JVal
  pyExec : String → JVal → Except PyErr JVal
  apiExec : String → JVal → Except PyErr JVal
  mcpExec : String → JVal → Except PyErr JVal

/-- Keywords execute_tool greps for in a RuntimeError message. -/
def loop_keywords : List String :=
  ["event loop", "cannot write", "connection", "closed"]

/-- Check `any(keyword in error_msg for keyword in ...)` on the lower-cased message. -/
def containsAnyKeyword (msg : String) : Bool :=
  loop_keywords.any (fun k => containsSub (toLowerStr msg) k)

/-- Python dict assignment `fs[k] = v` (replace or append). -/
def objSet (fs : List (String × JVal)) (k : String) (v : JVal) : List (String × JVal) :=
  if fs.any (fun p => p.1 = k) then fs.map (fun p => if p.1 = k then (k, v) else p)
  else fs ++ [(k, v)]

/-- Registry lookup tool_manager.get_tool_spec. -/
def get_tool_spec (tools : List ToolSpec) (name : String) : Option ToolSpec :=
  tools.find? (fun t => t.name = name)

/-- Error message `f"Tool '{tool_name}' not found"`. -/
def tool_not_found_msg (name : String) : String :=
  "Tool " ++ squote ++ name ++ squote ++ " not found"

/-- Source-link post-processing for `arxiv_search` results inside
execute_tool (attaches a `sources` list built from the `papers` entries that
carry a URL). -/
def arxiv_postprocess (tool_name : String) (result : JVal) : JVal :=
  if tool_name = "arxiv_search" then
    match result with
    | JVal.jobj fs =>
      match objGet fs "papers" with
      | some (JVal.jarr papers) =>
        let sources := papers.filterMap (fun p =>
          match p with
          | JVal.jobj pf =>
            match objGet pf "url" with
            | some u =>
              some (JVal.jobj [("title", (objGet pf "title").getD (JVal.jstr "ArXiv Paper")),
                               ("url", u), ("type", JVal.jstr "arxiv")])
            | none => none
          | _ => none)
        JVal.jobj (objSet fs "sources" (JVal.jarr sources))
      | _ => result
    | _ => result
  else result

/-- tool_manager.ToolManager.execute_tool. The whole body sits in a `try`
whose handler converts any exception into a failed ToolExecution; the nested
OpenWebUI attempt catches RuntimeError with event-loop keywords specially
and otherwise falls through to the `Tool not found` report. -/
def execute_tool (env : ToolEnv) (tools : List ToolSpec) (openwebui_initialized : Bool)
    (tool_name : String) (parameters : JVal) : Except PyErr ToolExecution :=
  let body : Except PyErr ToolExecution :=
    match get_tool_spec tools tool_name with
    | none =>
      if openwebui_initialized then
        match env.owExec tool_name parameters with
        | Except.ok result =>
          Except.ok ⟨true, some (arxiv_postprocess tool_name result), none, some 0⟩
        | Except.error e =>
          if e.runtime && containsAnyKeyword e.msg then
            Except.ok ⟨false, none,
              some ("Event loop/connection issue - skipping execution: " ++ e.msg), some 0⟩
          else
            Except.ok ⟨false, none, some (tool_not_found_msg tool_name), none⟩
      else Except.ok ⟨false, none, some (tool_not_found_msg tool_name), none⟩
    | some spec =>
      match spec.tool_type with
      | ToolType.python_module =>
        (env.pyExec tool_name parameters).map (fun r => ⟨true, some r, none, some 0⟩)
      | ToolType.function =>
        (env.pyExec tool_name parameters).map (fun r => ⟨true, some r, none, some 0⟩)
      | ToolType.external_api =>
        (env.apiExec tool_name parameters).map (fun r => ⟨true, some r, none, some 0⟩)
      | ToolType.mcp_tool =>
        (env.mcpExec tool_name parameters).map (fun r => ⟨true, some r, none, some 0⟩)
      | ToolType.openwebui_server =>
        if openwebui_initialized then
          (env.owExec "server:0_tool_search_papers_post" parameters).map
            (fun r => ⟨true, some r, none, some 0⟩)
        else
          Except.ok ⟨false, none,
            some ("OpenWebUI integration not initialized for tool: " ++ tool_name), none⟩
  match body with
  | Except.ok te => Except.ok te
  | Except.error e => Except.ok ⟨false, none, some e.msg, some 0⟩

/-- Defensive JSON localisation shared by generate_query, reflect_on_summary
and generate_verification_questions: strip whitespace, and when the text does
not start with a brace, cut from the first opening brace to the last closing
brace (only when that span is non-empty). -/
def extract_json_block (content0 : String) : String :=
  let c1 := pyStrip content0
  if c1 ≠ "" && !(("\x7b".toList).isPrefixOf c1.toList) then
    match pyFind c1 "\x7b" with
    | none => c1
    | some js =>
      match pyRfind c1 "\x7d" with
      | none => c1
      | some jr => if jr + 1 > js then pySlice c1 js (jr + 1) else c1
  else c1

/-- Parse-and-pick step of graph.generate_query: on a decoded dict take the
`query` member; any decoding failure, missing key or non-dict value falls
back to the (optionally thinking-token-stripped) localised content itself. -/
def extract_query (fuel : Nat) (strip_cfg : Bool) (content0 : String) : Option String :=
  let c := extract_json_block content0
  let fallback : Option String :=
    if strip_cfg then strip_thinking_tokens fuel c else some c
  match jsonLoads c with
  | some (JVal.jobj fs) =>
    match objGet fs "query" with
    | some q => some (pyToString q)
    | none => fallback
  | some _ => fallback
  | none => fallback

/-- Parse step of graph.reflect_on_summary: a decoded dict with a truthy
`is_sufficient` clears the query; otherwise the first follow-up query (or a
topic-derived default) is used; parse failures fall back to a topic-derived
query. -/
def reflect_extract (topic : String) (content0 : String) : String :=
  let c := extract_json_block content0
  match jsonLoads c with
  | some (JVal.jobj fs) =>
    let isSuff := (objGet fs "is_sufficient").getD (JVal.jbool false)
    if pyTruthy isSuff then ""
    else
      let fuq := (objGet fs "follow_up_queries").getD (JVal.jarr [])
      let q : Option JVal :=
        match fuq with
        | JVal.jarr (x :: _) => some x
        | JVal.jarr [] => none
        | JVal.jstr s => some (JVal.jstr s)
        | _ => none
      match q with
      | some qv =>
        if pyTruthy qv then pyToString qv else "More information about " ++ topic
      | none => "More information about " ++ topic
  | some _ => "Tell me more about " ++ topic
  | none => "Tell me more about " ++ topic

/-- One verification record appended by verify_research_claims. -/
structure VerificationRec where
  question : String
  search_results : String
  sources : String
deriving DecidableEq

/-- One tool result appended by tool_enhanced_research (contents opaque to
the control flow). -/
structure ToolRec where
  tool_name : String
  result : String
deriving DecidableEq

/-- Configuration fields of configuration.Configuration read by the graph
nodes under study. The Python field `strip_thinking_tokens` is named
`strip_thinking` here to avoid clashing with the function of the same name. -/
structure Configuration where
  max_web_research_loops : Nat
  fetch_full_page : Bool
  strip_thinking : Bool
  search_api : String
deriving DecidableEq

/-- Mutable graph state state.SummaryState. The list-valued fields are
`operator.add`-annotated in the source, so node returns append to them;
the scalar fields are replaced. -/
structure SummaryState where
  research_topic : String
  input_analysis : InputAnalysis
  search_strategy : String
  search_query : String
  web_research_results : List String
  sources_gathered : List String
  research_loop_count : Nat
  running_summary : String
  verification_questions : List String
  verification_results : List VerificationRec
  tool_results : List ToolRec
  enhanced_context : String
deriving DecidableEq

/-- Content returned by fetch_url_content_directly. -/
structure UrlContent where
  title : String
  content : String
  url : String
deriving DecidableEq

/-- Oracles for every external interaction of a session, indexed by a
monotone step counter so each node invocation sees its own response. -/
structure Env where
  searchAt : Nat → SearchEnv
  llmQuery : Nat → String
  llmSummary : Nat → String
  llmSynth : Nat → String
  llmReflect : Nat → String
  llmReport : Nat → String
  urlFetchAt : Nat → Option UrlContent
  toolResAt : Nat → List ToolRec × String

/-- Graph nodes of graph.py (builder.add_node names), plus the END marker. -/
inductive Node where
  | classifyIntentN
  | fetchUrlContentN
  | toolEnhancedResearchN
  | generateQueryN
  | webResearchN
  | summarizeSourcesN
  | generateVerificationQuestionsN
  | verifyResearchClaimsN
  | synthesizeWithVerificationN
  | reflectOnSummaryN
  | finalizeSummaryN
  | endN
deriving DecidableEq

/-- graph.classify_intent state update: records the input analysis and the
chosen strategy (the optional intent-service call only fills the
`intent_result` diagnostic dict, which no control decision reads). -/
def classifyUpd (s : SummaryState) : SummaryState :=
  { s with input_analysis := analyze_user_input s.research_topic,
           search_strategy := classify_strategy s.research_topic }

/-- Conversion of a fetched URL content dict into the search-result shape
(`{"results": [url_content]}` in fetch_url_content). -/
def ucToSource (uc : UrlContent) : Source :=
  ⟨uc.url, uc.title, some uc.content, none⟩

/-- graph.fetch_url_content: on a fetched page, append a formatted block and
source line and pin the loop count at 0; on a missing URL or failed fetch,
append nothing (the catch-all handler behaves the same way). -/
def fetchUpd (env : Env) (k : Nat) (s : SummaryState) : SummaryState :=
  match s.input_analysis.url with
  | none => s
  | some _ =>
    match env.urlFetchAt k with
    | some uc =>
      let rs : ResultSet := ⟨[ucToSource uc]⟩
      { s with
        web_research_results :=
          s.web_research_results ++ [deduplicate_and_format_sources rs 2000 true],
        sources_gathered := s.sources_gathered ++ [format_sources rs],
        research_loop_count := 0 }
    | none => s

/-- graph.tool_enhanced_research: appends whatever tool executions happened
and replaces the enhanced context (all failure paths of the node still
return these two keys). -/
def toolUpd (env : Env) (k : Nat) (s : SummaryState) : SummaryState :=
  { s with tool_results := s.tool_results ++ (env.toolResAt k).1,
           enhanced_context := (env.toolResAt k).2 }

/-- graph.generate_query: runs the JSON-mode LLM and stores the extracted
query (`none` only when the thinking-token stripping of the fallback path
fails to terminate within the fuel). -/
def genQUpd (cfg : Configuration) (env : Env) (fuel k : Nat) (s : SummaryState) :
    Option SummaryState :=
  (extract_query fuel cfg.strip_thinking (env.llmQuery k)).map
    (fun q => { s with search_query := q })

/-- graph.web_research: run the coordinator for the configured API, or fall
back to a plain searxng_search if the coordinator itself raised; both arms
append the formatted results and increment the loop count. -/
def webUpd (cfg : Configuration) (env : Env) (k : Nat) (s : SummaryState) :
    Option SummaryState :=
  let se := env.searchAt k
  let strat := if cfg.search_api = "mcp" then "mcp" else "web_search"
  match parallel_search_coordinator se s.search_query strat 8 cfg.fetch_full_page with
  | Except.ok rs =>
    some { s with
      sources_gathered := s.sources_gathered ++ [format_sources rs],
      research_loop_count := s.research_loop_count + 1,
      web_research_results :=
        s.web_research_results ++ [deduplicate_and_format_sources rs 1000 cfg.fetch_full_page] }
  | Except.error _ =>
    match searxng_search se s.search_query 3 cfg.fetch_full_page with
    | Except.ok rs =>
      some { s with
        sources_gathered := s.sources_gathered ++ [format_sources rs],
        research_loop_count := s.research_loop_count + 1,
        web_research_results :=
          s.web_research_results ++ [deduplicate_and_format_sources rs 1000 cfg.fetch_full_page] }
    | Except.error _ => none

/-- graph.summarize_sources state update: the running summary becomes the
LLM response, optionally passed through strip_thinking_tokens; there is no
non-emptiness fallback. -/
def summarize_update (strip_cfg : Bool) (fuel : Nat) (response : String)
    (s : SummaryState) : Option SummaryState :=
  (if strip_cfg then strip_thinking_tokens fuel response else some response).map
    (fun r => { s with running_summary := r })

/-- graph.generate_verification_questions: short-circuited in the source
("Temporarily disable verification"), it always returns an empty list, which
the `operator.add` channel appends. -/
def genVQUpd (s : SummaryState) : SummaryState :=
  { s with verification_questions := s.verification_questions ++ [] }

/-- One verification search of verify_research_claims; a per-question
exception skips the question and continues. -/
def verify_one (se : SearchEnv) (ffp : Bool) (q : String) : Option VerificationRec :=
  match parallel_search_coordinator se q "web_search" 2 ffp with
  | Except.ok rs =>
    some ⟨q, deduplicate_and_format_sources rs 500 ffp, format_sources rs⟩
  | Except.error _ => none

/-- Loop of verify_research_claims over (at most) the first three questions. -/
def verifyLoop (env : Env) (ffp : Bool) : Nat → List String → List VerificationRec
  | _, [] => []
  | i, q :: rest =>
    match verify_one (env.searchAt i) ffp q with
    | some r => r :: verifyLoop env ffp (i + 1) rest
    | none => verifyLoop env ffp (i + 1) rest

/-- graph.verify_research_claims: skipped entirely for direct URL requests
or when no questions exist; otherwise verifies the first three questions. -/
def verifyUpd (cfg : Configuration) (env : Env) (k : Nat) (s : SummaryState) :
    SummaryState :=
  let new :=
    if s.search_strategy = "url_fetch" && s.input_analysis.direct_fetch then []
    else if s.verification_questions = [] then []
    else verifyLoop env cfg.fetch_full_page k (s.verification_questions.take 3)
  { s with verification_results := s.verification_results ++ new }

/-- graph.synthesize_with_verification: passes the summary through unchanged
for direct URL requests or when there are no verification results; otherwise
replaces it with the (optionally stripped) synthesis LLM response. -/
def synthUpd (cfg : Configuration) (env : Env) (fuel k : Nat) (s : SummaryState) :
    Option SummaryState :=
  if s.search_strategy = "url_fetch" && s.input_analysis.direct_fetch then some s
  else if s.verification_results = [] then some s
  else
    (if cfg.strip_thinking then strip_thinking_tokens fuel (env.llmSynth k)
     else some (env.llmSynth k)).map
      (fun r => { s with running_summary := r })

/-- graph.reflect_on_summary state update: direct URL requests clear the
query; otherwise the reflection LLM response decides the next query. -/
def reflectUpd (env : Env) (k : Nat) (s : SummaryState) : SummaryState :=
  if s.search_strategy = "url_fetch" && s.input_analysis.direct_fetch then
    { s with search_query := "" }
  else
    { s with search_query := reflect_extract s.research_topic (env.llmReflect k) }

/-- graph.finalize_summary: replaces the running summary with the assembled
final report. The report text itself (LLM response plus sources section and
footer) is abstracted as an oracle response, since nothing in the claims
under study depends on its content and the node touches no other field. -/
def finalUpd (env : Env) (k : Nat) (s : SummaryState) : SummaryState :=
  { s with running_summary := env.llmReport k }

/-- Per-session loop bound computed inside graph.route_research. -/
def computed_max_loops (cfg : Configuration) (s : SummaryState) : Nat :=
  if s.search_strategy = "url_fetch" then
    (if s.input_analysis.direct_fetch then 0 else min cfg.max_web_research_loops 1)
  else cfg.max_web_research_loops

/-- graph.route_research: continue the loop while the loop count is below
the per-session bound, otherwise finalize. -/
def route_research (cfg : Configuration) (s : SummaryState) : Node :=
  if s.research_loop_count < computed_max_loops cfg s then Node.webResearchN
  else Node.finalizeSummaryN

/-- graph.route_after_intent. -/
def route_after_intent (s : SummaryState) : Node :=
  if s.search_strategy = "url_fetch" then Node.fetchUrlContentN
  else Node.toolEnhancedResearchN

/-- graph.route_after_url_fetch. -/
def route_after_url_fetch (s : SummaryState) : Node :=
  if s.input_analysis.direct_fetch then Node.summarizeSourcesN
  else Node.toolEnhancedResearchN

/-- graph.route_after_summarize (the disjunction is written as in the source;
it collapses to the direct_fetch flag). -/
def route_after_summarize (s : SummaryState) : Node :=
  if (s.search_strategy = "url_fetch" && s.input_analysis.direct_fetch) ||
      s.input_analysis.direct_fetch then Node.finalizeSummaryN
  else Node.generateVerificationQuestionsN

/-- A point of the graph execution: the node about to run, the state, and
the oracle step counter. -/
structure MachState where
  node : Node
  s : SummaryState
  k : Nat
deriving DecidableEq

/-- One LangGraph step: run the current node's update on the state, then
follow the (conditional) edge computed from the updated state, as wired by
builder.add_edge / add_conditional_edges. -/
def step (cfg : Configuration) (env : Env) (fuel : Nat) (m : MachState) :
    Option MachState :=
  match m.node with
  | Node.classifyIntentN =>
    let s1 := classifyUpd m.s
    some ⟨route_after_intent s1, s1, m.k + 1⟩
  | Node.fetchUrlContentN =>
    let s1 := fetchUpd env m.k m.s
    some ⟨route_after_url_fetch s1, s1, m.k + 1⟩
  | Node.toolEnhancedResearchN =>
    some ⟨Node.generateQueryN, toolUpd env m.k m.s, m.k + 1⟩
  | Node.generateQueryN =>
    (genQUpd cfg env fuel m.k m.s).map (fun s1 => ⟨Node.webResearchN, s1, m.k + 1⟩)
  | Node.webResearchN =>
    (webUpd cfg env m.k m.s).map (fun s1 => ⟨Node.summarizeSourcesN, s1, m.k + 1⟩)
  | Node.summarizeSourcesN =>
    (summarize_update cfg.strip_thinking fuel (env.llmSummary m.k) m.s).map
      (fun s1 => ⟨route_after_summarize s1, s1, m.k + 1⟩)
  | Node.generateVerificationQuestionsN =>
    some ⟨Node.verifyResearchClaimsN, genVQUpd m.s, m.k + 1⟩
  | Node.verifyResearchClaimsN =>
    some ⟨Node.synthesizeWithVerificationN, verifyUpd cfg env m.k m.s, m.k + 1⟩
  | Node.synthesizeWithVerificationN =>
    (synthUpd cfg env fuel m.k m.s).map (fun s1 => ⟨Node.reflectOnSummaryN, s1, m.k + 1⟩)
  | Node.reflectOnSummaryN =>
    let s1 := reflectUpd env m.k m.s
    some ⟨route_research cfg s1, s1, m.k + 1⟩
  | Node.finalizeSummaryN =>
    some ⟨Node.endN, finalUpd env m.k m.s, m.k + 1⟩
  | Node.endN => some m

/-- Fueled graph execution from a point to END, returning the final state
and the list of nodes executed, in order; `none` when the session does not
complete within the fuel. -/
def run : Nat → Configuration → Env → MachState → Option (SummaryState × List Node)
  | 0, _, _, m => if m.node = Node.endN then some (m.s, []) else none
  | fuel + 1, cfg, env, m =>
    if m.node = Node.endN then some (m.s, [])
    else
      match step cfg env (fuel + 1) m with
      | none => none
      | some m1 => (run fuel cfg env m1).map (fun p => (p.1, m.node :: p.2))

/-- Initial SummaryState for a topic (dataclass defaults of state.py, with
`None` strings modelled as empty and the empty analysis dict modelled by
falsy fields). -/
def initState (topic : String) : SummaryState :=
  ⟨topic, ⟨"", none, false, ""⟩, "web_search", "", [], [], 0, "", [], [], [], ""⟩

/-- Entry point of a session: the graph starts at classify_intent. -/
def initMach (topic : String) : MachState :=
  ⟨Node.classifyIntentN, initState topic, 0⟩

/-- Nodes covered by the loop characterisation lemma (everything after the
classification/URL-fetch prefix of a session). -/
def loop_node : Node → Bool
  | Node.classifyIntentN => false
  | Node.fetchUrlContentN => false
  | _ => true

/-- Loop count at session end as a function of the node about to run and the
current state (only meaningful for loop nodes). -/
def final_count (cfg : Configuration) (n : Node) (s : SummaryState) : Nat :=
  match n with
  | Node.endN => s.research_loop_count
  | Node.finalizeSummaryN => s.research_loop_count
  | Node.classifyIntentN => s.research_loop_count
  | Node.fetchUrlContentN => s.research_loop_count
  | Node.toolEnhancedResearchN => max (s.research_loop_count + 1) (computed_max_loops cfg s)
  | Node.generateQueryN => max (s.research_loop_count + 1) (computed_max_loops cfg s)
  | Node.webResearchN => max (s.research_loop_count + 1) (computed_max_loops cfg s)
  | _ => max s.research_loop_count (computed_max_loops cfg s)

@[simp] lemma toolUpd_count (env : Env) (k : Nat) (s : SummaryState) :
    (toolUpd env k s).research_loop_count = s.research_loop_count := rfl

@[simp] lemma toolUpd_strategy (env : Env) (k : Nat) (s : SummaryState) :
    (toolUpd env k s).search_strategy = s.search_strategy := rfl

@[simp] lemma toolUpd_analysis (env : Env) (k : Nat) (s : SummaryState) :
    (toolUpd env k s).input_analysis = s.input_analysis := rfl

@[simp] lemma genVQUpd_count (s : SummaryState) :
    (genVQUpd s).research_loop_count = s.research_loop_count := rfl

@[simp] lemma genVQUpd_strategy (s : SummaryState) :
    (genVQUpd s).search_strategy = s.search_strategy := rfl

@[simp] lemma genVQUpd_analysis (s : SummaryState) :
    (genVQUpd s).input_analysis = s.input_analysis := rfl

@[simp] lemma verifyUpd_count (cfg : Configuration) (env : Env) (k : Nat) (s : SummaryState) :
    (verifyUpd cfg env k s).research_loop_count = s.research_loop_count := rfl

@[simp] lemma verifyUpd_strategy (cfg : Configuration) (env : Env) (k : Nat) (s : SummaryState) :
    (verifyUpd cfg env k s).search_strategy = s.search_strategy := rfl

@[simp] lemma verifyUpd_analysis (cfg : Configuration) (env : Env) (k : Nat) (s : SummaryState) :
    (verifyUpd cfg env k s).input_analysis = s.input_analysis := rfl

@[simp] lemma finalUpd_count (env : Env) (k : Nat) (s : SummaryState) :
    (finalUpd env k s).research_loop_count = s.research_loop_count := rfl

@[simp] lemma finalUpd_strategy (env : Env) (k : Nat) (s : SummaryState) :
    (finalUpd env k s).search_strategy = s.search_strategy := rfl

@[simp] lemma finalUpd_analysis (env : Env) (k : Nat) (s : SummaryState) :
    (finalUpd env k s).input_analysis = s.input_analysis := rfl

@[simp] lemma reflectUpd_count (env : Env) (k : Nat) (s : SummaryState) :
    (reflectUpd env k s).research_loop_count = s.research_loop_count := by
  unfold reflectUpd; split <;> rfl

@[simp] lemma reflectUpd_strategy (env : Env) (k : Nat) (s : SummaryState) :
    (reflectUpd env k s).search_strategy = s.search_strategy := by
  unfold reflectUpd; split <;> rfl

@[simp] lemma reflectUpd_analysis (env : Env) (k : Nat) (s : SummaryState) :
    (reflectUpd env k s).input_analysis = s.input_analysis := by
  unfold reflectUpd; split <;> rfl

@[simp] lemma fetchUpd_strategy (env : Env) (k : Nat) (s : SummaryState) :
    (fetchUpd env k s).search_strategy = s.search_strategy := by
  unfold fetchUpd
  cases s.input_analysis.url with
  | none => rfl
  | some u => cases env.urlFetchAt k with
    | none => rfl
    | some uc => rfl

@[simp] lemma fetchUpd_analysis (env : Env) (k : Nat) (s : SummaryState) :
    (fetchUpd env k s).input_analysis = s.input_analysis := by
  unfold fetchUpd
  cases s.input_analysis.url with
  | none => rfl
  | some u => cases env.urlFetchAt k with
    | none => rfl
    | some uc => rfl

lemma genQUpd_some {cfg : Configuration} {env : Env} {fuel k : Nat}
    {s s1 : SummaryState} (h : genQUpd cfg env fuel k s = some s1) :
    s1.research_loop_count = s.research_loop_count ∧
    s1.search_strategy = s.search_strategy ∧
    s1.input_analysis = s.input_analysis := by
  unfold genQUpd at h
  rcases Option.map_eq_some'.mp h with ⟨q, -, rfl⟩
  exact ⟨rfl, rfl, rfl⟩

lemma summarize_update_some {strip_cfg : Bool} {fuel : Nat} {resp : String}
    {s s1 : SummaryState} (h : summarize_update strip_cfg fuel resp s = some s1) :
    s1.research_loop_count = s.research_loop_count ∧
    s1.search_strategy = s.search_strategy ∧
    s1.input_analysis = s.input_analysis := by
  unfold summarize_update at h
  rcases Option.map_eq_some'.mp h with ⟨r, -, rfl⟩
  exact ⟨rfl, rfl, rfl⟩

lemma synthUpd_some {cfg : Configuration} {env : Env} {fuel k : Nat}
    {s s1 : SummaryState} (h : synthUpd cfg env fuel k s = some s1) :
    s1.research_loop_count = s.research_loop_count ∧
    s1.search_strategy = s.search_strategy ∧
    s1.input_analysis = s.input_analysis := by
  unfold synthUpd at h
  split at h
  · cases h; exact ⟨rfl, rfl, rfl⟩
  · split at h
    · cases h; exact ⟨rfl, rfl, rfl⟩
    · rcases Option.map_eq_some'.mp h with ⟨r, -, rfl⟩
      exact ⟨rfl, rfl, rfl⟩

lemma webUpd_some {cfg : Configuration} {env : Env} {k : Nat}
    {s s1 : SummaryState} (h : webUpd cfg env k s = some s1) :
    s1.research_loop_count = s.research_loop_count + 1 ∧
    s1.search_strategy = s.search_strategy ∧
    s1.input_analysis = s.input_analysis := by
  unfold webUpd at h
  dsimp only at h
  split at h
  · injection h with h2
    subst h2
    exact ⟨rfl, rfl, rfl⟩
  · split at h
    · injection h with h2
      subst h2
      exact ⟨rfl, rfl, rfl⟩
    · exact absurd h (by simp)

lemma cml_congr {cfg : Configuration} {s1 s : SummaryState}
    (h1 : s1.search_strategy = s.search_strategy)
    (h2 : s1.input_analysis = s.input_analysis) :
    computed_max_loops cfg s1 = computed_max_loops cfg s := by
  unfold computed_max_loops
  rw [h1, h2]

lemma route_after_summarize_eq (s : SummaryState) :
    route_after_summarize s =
      if s.input_analysis.direct_fetch then Node.finalizeSummaryN
      else Node.generateVerificationQuestionsN := by
  unfold route_after_summarize
  cases h : s.input_analysis.direct_fetch <;> simp [h]

lemma loop_node_route_research (cfg : Configuration) (s : SummaryState) :
    loop_node (route_research cfg s) = true := by
  unfold route_research; split <;> rfl

lemma loop_node_route_after_summarize (s : SummaryState) :
    loop_node (route_after_summarize s) = true := by
  unfold route_after_summarize; split <;> rfl

/-- Characterisation of every completed run from a loop node: the final loop
count is `final_count`, and the strategy and input analysis are those at
entry (they are immutable after classification). The hypothesis links the
direct-fetch flag to the url_fetch strategy, which classification
establishes. -/
lemma run_count_char (fuel : Nat) :
    ∀ (cfg : Configuration) (env : Env) (m : MachState) (t : SummaryState) (tr : List Node),
    loop_node m.node = true →
    (m.s.input_analysis.direct_fetch = true → m.s.search_strategy = "url_fetch") →
    run fuel cfg env m = some (t, tr) →
    t.research_loop_count = final_count cfg m.node m.s ∧
    t.search_strategy = m.s.search_strategy ∧
    t.input_analysis = m.s.input_analysis := by
  induction fuel with
  | zero =>
    intro cfg env m t tr hl hH hrun
    simp only [run] at hrun
    split at hrun
    next hend =>
      obtain ⟨ht, htr⟩ := Prod.mk.injEq _ _ _ _ ▸ Option.some.injEq _ _ ▸ hrun
      subst ht
      exact ⟨by simp [hend, final_count], rfl, rfl⟩
    next => exact absurd hrun (by simp)
  | succ f ih =>
    intro cfg env m t tr hl hH hrun
    obtain ⟨n, s, k⟩ := m
    simp only [run] at hrun
    split at hrun
    next hend =>
      simp only at hend hl hH ⊢
      obtain ⟨ht, htr⟩ := Prod.mk.injEq _ _ _ _ ▸ Option.some.injEq _ _ ▸ hrun
      subst ht
      subst hend
      exact ⟨by simp [final_count], rfl, rfl⟩
    next hend =>
      simp only at hend hl hH ⊢
      cases n with
      | classifyIntentN => simp [loop_node] at hl
      | fetchUrlContentN => simp [loop_node] at hl
      | endN => exact absurd rfl hend
      | toolEnhancedResearchN =>
        simp only [step] at hrun
        rcases Option.map_eq_some'.mp hrun with ⟨⟨t0, tr0⟩, hrun0, heq⟩
        injection heq with ht htr
        subst ht
        have hres := ih cfg env ⟨Node.generateQueryN, toolUpd env k s, k + 1⟩ t0 tr0
          rfl (by simpa using hH) hrun0
        have hM : computed_max_loops cfg (toolUpd env k s) = computed_max_loops cfg s :=
          cml_congr (by simp) (by simp)
        refine ⟨?_, by simpa using hres.2.1, by simpa using hres.2.2⟩
        have h1 := hres.1
        simp only [final_count, toolUpd_count, hM] at h1 ⊢
        exact h1
      | generateQueryN =>
        simp only [step] at hrun
        rcases hg : genQUpd cfg env (f + 1) k s with _ | s1
        · rw [hg] at hrun; simp at hrun
        · rw [hg] at hrun
          simp only [Option.map_some'] at hrun
          rcases Option.map_eq_some'.mp hrun with ⟨⟨t0, tr0⟩, hrun0, heq⟩
          injection heq with ht htr
          subst ht
          obtain ⟨hc, hs, ha⟩ := genQUpd_some hg
          have hres := ih cfg env ⟨Node.webResearchN, s1, k + 1⟩ t0 tr0
            rfl (by simp only; rw [ha, hs]; exact hH) hrun0
          have hM : computed_max_loops cfg s1 = computed_max_loops cfg s := cml_congr hs ha
          refine ⟨?_, by rw [hres.2.1] at *; simpa [hs] using hs, ?_⟩
          · have h1 := hres.1
            simp only [final_count, hc, hM] at h1 ⊢
            exact h1
          · have := hres.2.2
            simp only at this
            rw [this, ha]
      | webResearchN =>
        simp only [step] at hrun
        rcases hg : webUpd cfg env k s with _ | s1
        · rw [hg] at hrun; simp at hrun
        · rw [hg] at hrun
          simp only [Option.map_some'] at hrun
          rcases Option.map_eq_some'.mp hrun with ⟨⟨t0, tr0⟩, hrun0, heq⟩
          injection heq with ht htr
          subst ht
          obtain ⟨hc, hs, ha⟩ := webUpd_some hg
          have hres := ih cfg env ⟨Node.summarizeSourcesN, s1, k + 1⟩ t0 tr0
            rfl (by simp only; rw [ha, hs]; exact hH) hrun0
          have hM : computed_max_loops cfg s1 = computed_max_loops cfg s := cml_congr hs ha
          refine ⟨?_, ?_, ?_⟩
          · have h1 := hres.1
            simp only [final_count, hc, hM] at h1 ⊢
            exact h1
          · have := hres.2.1
            simp only at this
            rw [this, hs]
          · have := hres.2.2
            simp only at this
            rw [this, ha]
      | summarizeSourcesN =>
        simp only [step] at hrun
        rcases hg : summarize_update cfg.strip_thinking (f + 1) (env.llmSummary k) s with _ | s1
        · rw [hg] at hrun; simp at hrun
        · rw [hg] at hrun
          simp only [Option.map_some'] at hrun
          rcases Option.map_eq_some'.mp hrun with ⟨⟨t0, tr0⟩, hrun0, heq⟩
          injection heq with ht htr
          subst ht
          obtain ⟨hc, hs, ha⟩ := summarize_update_some hg
          have hres := ih cfg env ⟨route_after_summarize s1, s1, k + 1⟩ t0 tr0
            (loop_node_route_after_summarize s1) (by simp only; rw [ha, hs]; exact hH) hrun0
          have hM : computed_max_loops cfg s1 = computed_max_loops cfg s := cml_congr hs ha
          refine ⟨?_, ?_, ?_⟩
          · have h1 := hres.1
            cases hd : s1.input_analysis.direct_fetch with
            | true =>
              have hd' : s.input_analysis.direct_fetch = true := by rw [← ha]; exact hd
              have hstrat : s.search_strategy = "url_fetch" := hH hd'
              have hM0 : computed_max_loops cfg s = 0 := by
                unfold computed_max_loops
                rw [hstrat, hd']
                simp
              simp only [route_after_summarize_eq, hd, if_true, final_count, hc, hM0] at h1 ⊢
              omega
            | false =>
              simp only [route_after_summarize_eq, hd, if_false, final_count, hc, hM] at h1 ⊢
              exact h1
          · have := hres.2.1
            simp only at this
            rw [this, hs]
          · have := hres.2.2
            simp only at this
            rw [this, ha]
      | generateVerificationQuestionsN =>
        simp only [step] at hrun
        rcases Option.map_eq_some'.mp hrun with ⟨⟨t0, tr0⟩, hrun0, heq⟩
        injection heq with ht htr
        subst ht
        have hres := ih cfg env ⟨Node.verifyResearchClaimsN, genVQUpd s, k + 1⟩ t0 tr0
          rfl (by simpa using hH) hrun0
        have hM : computed_max_loops cfg (genVQUpd s) = computed_max_loops cfg s :=
          cml_congr (by simp) (by simp)
        refine ⟨?_, by simpa using hres.2.1, by simpa using hres.2.2⟩
        have h1 := hres.1
        simp only [final_count, genVQUpd_count, hM] at h1 ⊢
        exact h1
      | verifyResearchClaimsN =>
        simp only [step] at hrun
        rcases Option.map_eq_some'.mp hrun with ⟨⟨t0, tr0⟩, hrun0, heq⟩
        injection heq with ht htr
        subst ht
        have hres := ih cfg env ⟨Node.synthesizeWithVerificationN, verifyUpd cfg env k s, k + 1⟩ t0 tr0
          rfl (by simpa using hH) hrun0
        have hM : computed_max_loops cfg (verifyUpd cfg env k s) = computed_max_loops cfg s :=
          cml_congr (by simp) (by simp)
        refine ⟨?_, by simpa using hres.2.1, by simpa using hres.2.2⟩
        have h1 := hres.1
        simp only [final_count, verifyUpd_count, hM] at h1 ⊢
        exact h1
      | synthesizeWithVerificationN =>
        simp only [step] at hrun
        rcases hg : synthUpd cfg env (f + 1) k s with _ | s1
        · rw [hg] at hrun; simp at hrun
        · rw [hg] at hrun
          simp only [Option.map_some'] at hrun
          rcases Option.map_eq_some'.mp hrun with ⟨⟨t0, tr0⟩, hrun0, heq⟩
          injection heq with ht htr
          subst ht
          obtain ⟨hc, hs, ha⟩ := synthUpd_some hg
          have hres := ih cfg env ⟨Node.reflectOnSummaryN, s1, k + 1⟩ t0 tr0
            rfl (by simp only; rw [ha, hs]; exact hH) hrun0
          have hM : computed_max_loops cfg s1 = computed_max_loops cfg s := cml_congr hs ha
          refine ⟨?_, ?_, ?_⟩
          · have h1 := hres.1
            simp only [final_count, hc, hM] at h1 ⊢
            exact h1
          · have := hres.2.1
            simp only at this
            rw [this, hs]
          · have := hres.2.2
            simp only at this
            rw [this, ha]
      | reflectOnSummaryN =>
        simp only [step] at hrun
        rcases Option.map_eq_some'.mp hrun with ⟨⟨t0, tr0⟩, hrun0, heq⟩
        injection heq with ht htr
        subst ht
        have hres := ih cfg env ⟨route_research cfg (reflectUpd env k s), reflectUpd env k s, k + 1⟩ t0 tr0
          (loop_node_route_research cfg (reflectUpd env k s)) (by simpa using hH) hrun0
        have hM : computed_max_loops cfg (reflectUpd env k s) = computed_max_loops cfg s :=
          cml_congr (by simp) (by simp)
        refine ⟨?_, by simpa using hres.2.1, by simpa using hres.2.2⟩
        have h1 := hres.1
        by_cases hlt :
            (reflectUpd env k s).research_loop_count < computed_max_loops cfg (reflectUpd env k s)
        · rw [route_research, if_pos hlt] at h1
          simp only [final_count, reflectUpd_count, hM] at h1 ⊢
          rw [reflectUpd_count, hM] at hlt
          omega
        · rw [route_research, if_neg hlt] at h1
          simp only [final_count, reflectUpd_count, hM] at h1 ⊢
          rw [reflectUpd_count, hM] at hlt
          omega
      | finalizeSummaryN =>
        simp only [step] at hrun
        rcases Option.map_eq_some'.mp hrun with ⟨⟨t0, tr0⟩, hrun0, heq⟩
        injection heq with ht htr
        subst ht
        have hres := ih cfg env ⟨Node.endN, finalUpd env k s, k + 1⟩ t0 tr0
          rfl (by simpa using hH) hrun0
        refine ⟨?_, by simpa using hres.2.1, by simpa using hres.2.2⟩
        have h1 := hres.1
        simp only [final_count, finalUpd_count] at h1 ⊢
        exact h1

lemma analyze_direct_imp_url (topic : String) :
    (analyze_user_input topic).direct_fetch = true →
    (analyze_user_input topic).input_type = "url" := by
  unfold analyze_user_input
  cases findUrl topic.toList with
  | none => intro h; exact absurd h (by simp)
  | some u => intro _; rfl

lemma classify_strategy_url_of_direct (topic : String) :
    (analyze_user_input topic).direct_fetch = true →
    classify_strategy topic = "url_fetch" := by
  intro h
  unfold classify_strategy
  simp only [analyze_direct_imp_url topic h, h]
  rfl

lemma classify_direct_of_strategy_url (topic : String) :
    classify_strategy topic = "url_fetch" →
    (analyze_user_input topic).direct_fetch = true := by
  unfold classify_strategy
  intro h
  by_cases hu : (analyze_user_input topic).input_type = "url"
  · rw [if_pos hu] at h
    by_cases hd : (analyze_user_input topic).direct_fetch = true
    · exact hd
    · rw [if_neg hd] at h
      exact absurd h (by decide)
  · rw [if_neg hu] at h
    exact absurd h (by decide)

@[simp] lemma classifyUpd_init_analysis (topic : String) :
    (classifyUpd (initState topic)).input_analysis = analyze_user_input topic := rfl

@[simp] lemma classifyUpd_init_strategy (topic : String) :
    (classifyUpd (initState topic)).search_strategy = classify_strategy topic := rfl

@[simp] lemma classifyUpd_init_count (topic : String) :
    (classifyUpd (initState topic)).research_loop_count = 0 := rfl

lemma fetchUpd_count_zero (env : Env) (k : Nat) (s : SummaryState)
    (h : s.research_loop_count = 0) : (fetchUpd env k s).research_loop_count = 0 := by
  unfold fetchUpd
  cases s.input_analysis.url with
  | none => exact h
  | some u => cases env.urlFetchAt k with
    | none => exact h
    | some uc => rfl

/-- Search environment whose endpoints return no hits and no papers. -/
def demoSearchEnv : SearchEnv := ⟨Except.ok [], Except.ok [], fun _ => none⟩

/-- Oracle environment whose LLM responses are all empty and whose fetches
fail; it exercises every degraded path of the pipeline. -/
def demoEnv : Env :=
  ⟨fun _ => demoSearchEnv, fun _ => "", fun _ => "", fun _ => "", fun _ => "",
   fun _ => "", fun _ => none, fun _ => ([], "")⟩

/-- Configuration with `max_web_research_loops = 0`. -/
def cfgMax0 : Configuration := ⟨0, false, false, "searxng"⟩

/-- Configuration with `max_web_research_loops = 1`. -/
def cfgMax1 : Configuration := ⟨1, false, false, "searxng"⟩

/-- Configuration with the default `max_web_research_loops = 3`. -/
def cfgMax3 : Configuration := ⟨3, false, false, "searxng"⟩

/-- C1 (amended): for every completed session, the final number of executed
web-research steps is bounded by the per-session `maxLoops` whenever the
configured maximum is at least 1 (the direct-fetch fast path performs no
web-research step at all, and the non-direct paths run `max 1 maxLoops`
iterations; with a configured maximum of 0 the first unconditional
web-research step exceeds the bound by one, see the counterexample). -/
theorem C1_loop_bound_amended (fuel : Nat) (cfg : Configuration) (env : Env)
    (topic : String) (t : SummaryState) (tr : List Node)
    (hmax : 1 ≤ cfg.max_web_research_loops)
    (hrun : run fuel cfg env (initMach topic) = some (t, tr)) :
    t.research_loop_count ≤ computed_max_loops cfg t := by
  cases fuel with
  | zero => simp [run, initMach] at hrun
  | succ f =>
    simp only [run, initMach] at hrun
    rw [if_neg (by decide)] at hrun
    simp only [step, Nat.zero_add] at hrun
    by_cases hcs : classify_strategy topic = "url_fetch"
    · have hdirect : (analyze_user_input topic).direct_fetch = true :=
        classify_direct_of_strategy_url topic hcs
      have hroute : route_after_intent (classifyUpd (initState topic)) =
          Node.fetchUrlContentN := by
        unfold route_after_intent
        simp [classifyUpd_init_strategy, hcs]
      rw [hroute] at hrun
      rcases Option.map_eq_some'.mp hrun with ⟨⟨t0, tr0⟩, hrun0, heq⟩
      dsimp only at heq
      injection heq with ht htr
      subst ht
      cases f with
      | zero => simp [run] at hrun0
      | succ f2 =>
        simp only [run] at hrun0
        rw [if_neg (by decide)] at hrun0
        simp only [step, Nat.zero_add] at hrun0
        have hroute2 : route_after_url_fetch (fetchUpd env 1 (classifyUpd (initState topic))) =
            Node.summarizeSourcesN := by
          unfold route_after_url_fetch
          rw [fetchUpd_analysis]
          simp [classifyUpd_init_analysis, hdirect]
        rw [hroute2] at hrun0
        rcases Option.map_eq_some'.mp hrun0 with ⟨⟨t1, tr1⟩, hrun1, heq1⟩
        dsimp only at heq1
        injection heq1 with ht1 htr1
        subst ht1
        have hH2 : (fetchUpd env 1 (classifyUpd (initState topic))).input_analysis.direct_fetch = true →
            (fetchUpd env 1 (classifyUpd (initState topic))).search_strategy = "url_fetch" := by
          intro _
          rw [fetchUpd_strategy]
          simp [classifyUpd_init_strategy, hcs]
        have hchar := run_count_char f2 cfg env
          ⟨Node.summarizeSourcesN, fetchUpd env 1 (classifyUpd (initState topic)), 2⟩ t1 tr1
          rfl hH2 hrun1
        have hcount0 : (fetchUpd env 1 (classifyUpd (initState topic))).research_loop_count = 0 :=
          fetchUpd_count_zero env 1 _ (by simp)
        have hM : computed_max_loops cfg (fetchUpd env 1 (classifyUpd (initState topic))) = 0 := by
          unfold computed_max_loops
          rw [fetchUpd_strategy, fetchUpd_analysis]
          simp [classifyUpd_init_strategy, classifyUpd_init_analysis, hcs, hdirect]
        have hMt : computed_max_loops cfg t1 = 0 :=
          (cml_congr hchar.2.1 hchar.2.2).trans hM
        have hc1 := hchar.1
        simp only [final_count, hcount0, hM] at hc1
        rw [hMt]
        omega
    · have hroute : route_after_intent (classifyUpd (initState topic)) =
          Node.toolEnhancedResearchN := by
        unfold route_after_intent
        simp [classifyUpd_init_strategy, hcs]
      rw [hroute] at hrun
      rcases Option.map_eq_some'.mp hrun with ⟨⟨t0, tr0⟩, hrun0, heq⟩
      dsimp only at heq
      injection heq with ht htr
      subst ht
      have hH1 : (classifyUpd (initState topic)).input_analysis.direct_fetch = true →
          (classifyUpd (initState topic)).search_strategy = "url_fetch" := by
        simp only [classifyUpd_init_analysis, classifyUpd_init_strategy]
        exact classify_strategy_url_of_direct topic
      have hchar := run_count_char f cfg env
        ⟨Node.toolEnhancedResearchN, classifyUpd (initState topic), 1⟩ t0 tr0 rfl hH1 hrun0
      have hM : computed_max_loops cfg (classifyUpd (initState topic)) =
          cfg.max_web_research_loops := by
        unfold computed_max_loops
        simp [classifyUpd_init_strategy, hcs]
      have hMt : computed_max_loops cfg t0 = cfg.max_web_research_loops :=
        (cml_congr hchar.2.1 hchar.2.2).trans hM
      have hc1 := hchar.1
      simp only [final_count, classifyUpd_init_count, hM] at hc1
      rw [hMt]
      omega

/-- C1 counterexample: with `max_web_research_loops = 0` and a plain
web-search topic, the session still executes one web-research step (the
unconditional `generate_query → web_research` edge runs before the first
routing check), so the final loop count is 1 while the computed per-session
maxLoops is 0, violating the claimed bound for a configured maximum of 0. -/
theorem C1_loop_bound_counterexample :
    (run 40 cfgMax0 demoEnv (initMach "T")).map
      (fun p => (p.1.research_loop_count, computed_max_loops cfgMax0 p.1)) =
      some (1, 0) := by
  decide

/-- C1 witness: a concrete completed session with the default-style
configuration `max_web_research_loops = 1` satisfies the amended bound. -/
theorem C1_loop_bound_witness :
    1 ≤ cfgMax1.max_web_research_loops ∧
    (match run 40 cfgMax1 demoEnv (initMach "T") with
     | some (t, _) => t.research_loop_count ≤ computed_max_loops cfgMax1 t
     | none => False) := by
  refine ⟨by decide, ?_⟩
  rcases heq : run 40 cfgMax1 demoEnv (initMach "T") with _ | ⟨t, tr⟩
  · exact absurd heq (by decide)
  · exact C1_loop_bound_amended 40 cfgMax1 demoEnv "T" t tr (by decide) heq

/-- C10 (code bug): strip_thinking_tokens does not terminate on the input
`"</think><think>"`. There `find("</think>") = 0`, so the loop body computes
`end = 8 = start` and reassigns the unchanged string while both tags keep
the guard true, hence no amount of fuel completes the loop. -/
lemma strip_fixed_diverges (t : List Char) (hg : strip_guard t = true)
    (hs : strip_once t = t) : ∀ fuel, strip_think_aux fuel t = none := by
  intro fuel
  induction fuel with
  | zero => simp [strip_think_aux, hg]
  | succ f ih => simp [strip_think_aux, hg, hs, ih]

theorem C10_strip_thinking_tokens_nontermination :
    ∀ fuel : Nat, strip_thinking_tokens fuel "</think><think>" = none := by
  intro fuel
  unfold strip_thinking_tokens
  rw [strip_fixed_diverges "</think><think>".toList (by decide) (by decide) fuel]
  rfl

lemma dedup_aux (l : List Source) :
    ∀ (acc : List Source) (seen : List String),
    (∀ u, (acc.any (fun t => t.url = u) = true) ↔ u ∈ seen) →
    l.foldl (fun acc s => if acc.any (fun t => t.url = s.url) then acc else acc ++ [s]) acc
      = acc ++ spec_first_seen_dedup seen l := by
  induction l with
  | nil =>
    intro acc seen _
    simp [spec_first_seen_dedup]
  | cons s rest ih =>
    intro acc seen h
    rw [List.foldl_cons]
    by_cases hm : s.url ∈ seen
    · have hmem : seen.contains s.url = true := by
        simpa using hm
      rw [if_pos ((h s.url).mpr hm)]
      rw [ih acc seen h]
      simp [spec_first_seen_dedup, hm]
    · have hmem : seen.contains s.url = false := by
        simpa using hm
      have hfalse : ¬(acc.any (fun t => t.url = s.url) = true) :=
        fun hh => hm ((h s.url).mp hh)
      rw [if_neg hfalse]
      have hinv : ∀ u, ((acc ++ [s]).any (fun t => t.url = u) = true) ↔ u ∈ s.url :: seen := by
        intro u
        simp only [List.any_append, List.any_cons, List.any_nil, Bool.or_eq_true,
          List.mem_cons, h u, Bool.or_false, decide_eq_true_eq]
        constructor
        · rintro (hseen | hequ)
          · exact Or.inr hseen
          · exact Or.inl hequ.symm
        · rintro (hequ | hseen)
          · exact Or.inr hequ.symm
          · exact Or.inl hseen
      rw [ih (acc ++ [s]) (s.url :: seen) hinv]
      simp [spec_first_seen_dedup, hm]

lemma spec_dedup_sublist (l : List Source) :
    ∀ seen : List String, List.Sublist (spec_first_seen_dedup seen l) l := by
  induction l with
  | nil => intro seen; simp [spec_first_seen_dedup]
  | cons s rest ih =>
    intro seen
    unfold spec_first_seen_dedup
    split
    · exact List.Sublist.cons s (ih seen)
    · exact List.Sublist.cons₂ s (ih (s.url :: seen))

lemma spec_dedup_nodup (l : List Source) :
    ∀ seen : List String,
    ((spec_first_seen_dedup seen l).map Source.url).Nodup ∧
    ∀ u ∈ (spec_first_seen_dedup seen l).map Source.url, u ∉ seen := by
  induction l with
  | nil => intro seen; simp [spec_first_seen_dedup]
  | cons s rest ih =>
    intro seen
    unfold spec_first_seen_dedup
    split
    · exact ih seen
    · next hnm =>
      obtain ⟨hnd, hdis⟩ := ih (s.url :: seen)
      refine ⟨?_, ?_⟩
      · simp only [List.map_cons, List.nodup_cons]
        exact ⟨fun hmem => (hdis s.url hmem) (List.mem_cons_self _ _), hnd⟩
      · intro u hu
        simp only [List.map_cons, List.mem_cons] at hu
        rcases hu with rfl | hu
        · exact fun hin => hnm (by simpa using hin)
        · exact fun hus => (hdis u hu) (List.mem_cons_of_mem _ hus)

/-- C4: the dedup step of deduplicate_and_format_sources keeps exactly the
first occurrence of each URL in encounter order: it equals the first-seen
specification, preserves the input order (sublist), yields pairwise distinct
URLs, and on the concrete example `[{url a}, {url b}, {url a}]` the formatted
output contains exactly one block for `a` and one for `b`, with `a` first. -/
theorem C4_dedup_first_seen :
    (∀ l : List Source, dedup_sources l = spec_first_seen_dedup [] l) ∧
    (∀ l : List Source, List.Sublist (dedup_sources l) l) ∧
    (∀ l : List Source, ((dedup_sources l).map Source.url).Nodup) ∧
    deduplicate_and_format_sources
        ⟨[⟨"a", "A", some "ca", none⟩, ⟨"b", "B", some "cb", none⟩,
          ⟨"a", "A2", some "ca2", none⟩]⟩ 100 false =
      "Sources:\n\nSource: A\n===\nca\n\nSource: B\n===\ncb\n\n" := by
  have hmain : ∀ l : List Source, dedup_sources l = spec_first_seen_dedup [] l := by
    intro l
    unfold dedup_sources
    have h := dedup_aux l [] [] (by intro u; simp)
    simpa using h
  refine ⟨hmain, ?_, ?_, ?_⟩
  · intro l
    rw [hmain l]
    exact spec_dedup_sublist l []
  · intro l
    rw [hmain l]
    exact (spec_dedup_nodup l []).1
  · decide

/-- C5 (amended): the defensive extraction of generate_query recovers the
query from a JSON object embedded in noise, and with thinking-token
stripping disabled it always yields some string without raising; the
fallback on unparsable input is the localised content itself (see the
counterexample), not a topic-derived query. -/
theorem C5_query_extraction_amended :
    extract_query 100 true "noise \x7b\"query\":\"x\"\x7d trailing" = some "x" ∧
    (∀ (fuel : Nat) (content : String),
      (extract_query fuel false content).isSome = true) := by
  constructor
  · decide
  · intro fuel content
    unfold extract_query
    dsimp only
    rcases h : jsonLoads (extract_json_block content) with _ | v
    · simp
    · rcases v with _ | b | n | str | xs | fs
      · simp
      · simp
      · simp
      · simp
      · simp
      · rcases hq : objGet fs "query" with _ | q <;> simp [hq]

/-- C5 counterexample: on unparsable garbage the extraction returns the
garbage text itself as the search query, not a query derived from the
research topic (the fallback arm of generate_query assigns the localised
content, and no topic-based synthesis exists on this path). -/
theorem C5_query_extraction_counterexample :
    extract_query 100 true "complete nonsense output" =
      some "complete nonsense output" := by
  decide

/-- C7 (amended): the classification is exactly the conjunction of the two
regex matches of analyze_user_input: a topic matching both the URL pattern
and one of the four direct-content indicator patterns is classified
`url_fetch` with `direct_fetch = true`, and if either match fails the
strategy is `web_search`. The spec example "summarize this https://x" does
not match any indicator pattern (see the counterexample); an example that
does is "summarize this link https://x". -/
theorem C7_intent_classification_amended :
    ∀ topic : String,
      (((findUrl topic.toList).isSome = true ∧ direct_fetch_match topic = true) →
        classify_strategy topic = "url_fetch" ∧
        (analyze_user_input topic).direct_fetch = true) ∧
      (((findUrl topic.toList).isSome = false ∨ direct_fetch_match topic = false) →
        classify_strategy topic = "web_search") := by
  intro topic
  constructor
  · rintro ⟨hu, hd⟩
    unfold classify_strategy analyze_user_input
    dsimp only
    rcases hfu : findUrl topic.toList with _ | u
    · rw [hfu] at hu
      simp at hu
    · simp [hd]
  · intro h
    unfold classify_strategy analyze_user_input
    dsimp only
    rcases hfu : findUrl topic.toList with _ | u
    · simp
    · rcases h with h | h
      · rw [hfu] at h
        simp at h
      · simp [h]

/-- C7 counterexample: the spec example topic "summarize this https://x"
contains a URL and the direct-request phrase "summarize this", yet the
classifier yields `web_search` with `direct_fetch = false`, because pattern
1 requires a url/link/page/website/article noun after "this" and pattern 4
requires the URL to follow the verb immediately. -/
theorem C7_intent_classification_counterexample :
    (findUrl "summarize this https://x".toList).isSome = true ∧
    classify_strategy "summarize this https://x" = "web_search" ∧
    (analyze_user_input "summarize this https://x").direct_fetch = false := by
  decide

/-- C7 witness: a topic matching both regexes is classified url_fetch with
direct_fetch set. -/
theorem C7_intent_classification_witness :
    classify_strategy "summarize this link https://x" = "url_fetch" ∧
    (analyze_user_input "summarize this link https://x").direct_fetch = true :=
  (C7_intent_classification_amended "summarize this link https://x").1
    ⟨by decide, by decide⟩

/-- C9 (amended): once summarization executes, running_summary equals the
LLM response (after optional thinking-token stripping) with no non-emptiness
fallback: it is empty exactly when that processed response is empty. -/
theorem C9_running_summary_amended :
    ∀ (fuel : Nat) (resp : String) (s : SummaryState),
      ((summarize_update true fuel resp s).map (fun t => t.running_summary) =
        strip_thinking_tokens fuel resp) ∧
      ((summarize_update false fuel resp s).map (fun t => t.running_summary) =
        some resp) := by
  intro fuel resp s
  constructor
  · unfold summarize_update
    rcases h : strip_thinking_tokens fuel resp with _ | r <;> simp [h]
  · rfl

/-- C9 counterexample: an empty LLM response — and likewise a response that
is nothing but a thinking block — leaves running_summary empty right after
the summarization step, contradicting the claimed non-emptiness invariant. -/
theorem C9_running_summary_counterexample :
    ((summarize_update true 10 "" (initState "T")).map
      (fun t => t.running_summary) = some "") ∧
    ((summarize_update true 10 "<think>reasoning</think>" (initState "T")).map
      (fun t => t.running_summary) = some "") := by
  decide

/-- C8 (amended): when the reflection response decodes to an object with a
truthy `is_sufficient`, the next search query is set to the empty string;
but the subsequent routing check route_research ignores the query entirely
and finalizes iff the loop count has reached the per-session bound, so a
sufficient verdict does not by itself end the loop (see the counterexample). -/
theorem C8_reflection_sufficiency_amended :
    (∀ (topic content : String) (fs : List (String × JVal)),
      jsonLoads (extract_json_block content) = some (JVal.jobj fs) →
      pyTruthy ((objGet fs "is_sufficient").getD (JVal.jbool false)) = true →
      reflect_extract topic content = "") ∧
    (∀ (cfg : Configuration) (s : SummaryState) (q : String),
      route_research cfg s = route_research cfg { s with search_query := q }) ∧
    (∀ (cfg : Configuration) (s : SummaryState),
      s.search_strategy ≠ "url_fetch" →
      (route_research cfg s = Node.finalizeSummaryN ↔
        cfg.max_web_research_loops ≤ s.research_loop_count)) := by
  refine ⟨?_, ?_, ?_⟩
  · intro topic content fs hparse htruthy
    unfold reflect_extract
    dsimp only
    rw [hparse]
    simp [htruthy]
  · intro cfg s q
    rfl
  · intro cfg s hne
    unfold route_research computed_max_loops
    rw [if_neg hne]
    constructor
    · intro h
      by_cases hlt : s.research_loop_count < cfg.max_web_research_loops
      · rw [if_pos hlt] at h
        exact absurd h (by decide)
      · omega
    · intro h
      rw [if_neg (by omega)]

/-- State of a web-search session right after its first reflection: one loop
executed, query cleared by a sufficient verdict. -/
def reflectDoneState : SummaryState :=
  { initState "T" with
    search_strategy := "web_search"
    research_loop_count := 1
    search_query := "" }

/-- C8 counterexample: with the default maximum of 3 loops, a session whose
first reflection returned `{"is_sufficient": true}` has its query cleared,
yet route_research still routes to web_research (1 < 3), not to
finalize_summary, so the session does not proceed to finalization at the
next routing check as claimed. -/
theorem C8_reflection_sufficiency_counterexample :
    reflect_extract "T" "\x7b\"is_sufficient\": true\x7d" = "" ∧
    route_research cfgMax3 reflectDoneState = Node.webResearchN := by
  constructor
  · decide
  · decide

/-- State used to witness the amended C8 routing equivalence. -/
def reflectWitnessState : SummaryState :=
  { initState "quantum" with
    search_strategy := "web_search"
    research_loop_count := 5 }

/-- C8 witness: the amended theorem applied at a concrete parsed response
and a concrete state past the bound. -/
theorem C8_reflection_sufficiency_witness :
    reflect_extract "quantum" "\x7b\"is_sufficient\": true\x7d" = "" ∧
    (route_research cfgMax3 reflectWitnessState = Node.finalizeSummaryN ↔
      cfgMax3.max_web_research_loops ≤ reflectWitnessState.research_loop_count) :=
  ⟨C8_reflection_sufficiency_amended.1 "quantum" "\x7b\"is_sufficient\": true\x7d"
      [("is_sufficient", JVal.jbool true)] rfl rfl,
    C8_reflection_sufficiency_amended.2.2 cfgMax3 reflectWitnessState (by decide)⟩

/-- Check whether an Except computation completed without raising. -/
def isOkE {E A : Type} (r : Except E A) : Bool :=
  match r with
  | Except.ok _ => true
  | Except.error _ => false

/-- Success flag of a tool execution result, if the call did not raise. -/
def exeSuccess (r : Except PyErr ToolExecution) : Option Bool :=
  match r with
  | Except.ok te => some te.success
  | Except.error _ => none

/-- Presence of an error message in a tool execution result. -/
def exeHasError (r : Except PyErr ToolExecution) : Option Bool :=
  match r with
  | Except.ok te => some te.error.isSome
  | Except.error _ => none

/-- C2: execute_tool always returns a ToolExecution and never propagates an
exception to its caller; for a tool name that is not registered and that the
OpenWebUI integration cannot serve, the returned record has success false
and carries an error message. -/
theorem C2_execute_tool_contract :
    ∀ (env : ToolEnv) (tools : List ToolSpec) (owInit : Bool) (name : String)
      (params : JVal),
      isOkE (execute_tool env tools owInit name params) = true ∧
      (get_tool_spec tools name = none →
        (owInit = false ∨ isOkE (env.owExec name params) = false) →
        exeSuccess (execute_tool env tools owInit name params) = some false ∧
        exeHasError (execute_tool env tools owInit name params) = some true) := by
  intro env tools owInit name params
  constructor
  · unfold execute_tool
    dsimp only
    rcases hspec : get_tool_spec tools name with _ | spec
    · cases owInit with
      | false => simp [isOkE]
      | true =>
        rcases how : env.owExec name params with e | r
        · by_cases hkw : (e.runtime = true ∧ containsAnyKeyword e.msg = true)
          · simp [isOkE, hkw]
          · simp [isOkE, hkw]
        · simp [isOkE]
    · rcases htype : spec.tool_type
      · rcases hex : env.pyExec name params with e | r <;>
          simp [isOkE, Except.map, hex, htype]
      · rcases hex : env.apiExec name params with e | r <;>
          simp [isOkE, Except.map, hex, htype]
      · rcases hex : env.mcpExec name params with e | r <;>
          simp [isOkE, Except.map, hex, htype]
      · rcases hex : env.pyExec name params with e | r <;>
          simp [isOkE, Except.map, hex, htype]
      · cases owInit with
        | false => simp [isOkE, htype]
        | true =>
          rcases hex : env.owExec "server:0_tool_search_papers_post" params with e | r <;>
            simp [isOkE, Except.map, hex, htype]
  · intro hspec hfail
    unfold execute_tool
    dsimp only
    rw [hspec]
    rcases hfail with hof | hoe
    · subst hof
      simp [exeSuccess, exeHasError]
    · cases owInit with
      | false => simp [exeSuccess, exeHasError]
      | true =>
        rcases how : env.owExec name params with e | r
        · by_cases hkw : (e.runtime = true ∧ containsAnyKeyword e.msg = true)
          · simp [exeSuccess, exeHasError, hkw]
          · simp [exeSuccess, exeHasError, hkw]
        · rw [how] at hoe
          simp [isOkE] at hoe

/-- Tool environment whose OpenWebUI endpoint is down. -/
def toolEnvW : ToolEnv :=
  ⟨fun _ _ => Except.error ⟨false, "server down"⟩,
   fun _ _ => Except.ok JVal.jnull,
   fun _ _ => Except.ok JVal.jnull,
   fun _ _ => Except.ok JVal.jnull⟩

/-- C2 witness: invoking an unregistered tool on an empty registry without
OpenWebUI yields a non-raising failure record with an error message. -/
theorem C2_execute_tool_witness :
    isOkE (execute_tool toolEnvW [] false "missing_tool" (JVal.jobj [])) = true ∧
    exeSuccess (execute_tool toolEnvW [] false "missing_tool" (JVal.jobj [])) = some false ∧
    exeHasError (execute_tool toolEnvW [] false "missing_tool" (JVal.jobj [])) = some true :=
  ⟨(C2_execute_tool_contract toolEnvW [] false "missing_tool" (JVal.jobj [])).1,
   ((C2_execute_tool_contract toolEnvW [] false "missing_tool" (JVal.jobj [])).2
      rfl (Or.inl rfl)).1,
   ((C2_execute_tool_contract toolEnvW [] false "missing_tool" (JVal.jobj [])).2
      rfl (Or.inl rfl)).2⟩

/-- C3 (amended): the search coordinator never propagates an exception and
always returns a result-set dictionary; however, when the MCP path is
selected and the MCP endpoint raises, the exception is swallowed inside
mcp_search/mcp_search_sync and the coordinator surfaces the empty result set
without consulting the web-search path (the coordinator-level web-search
fallback only runs if the selected callee itself raises, which the internal
handlers prevent). -/
theorem C3_search_coordinator_amended :
    ∀ (se : SearchEnv) (query strat : String) (mr : Nat) (ffp : Bool),
      isOkE (parallel_search_coordinator se query strat mr ffp) = true ∧
      (∀ e, strat = "mcp" → se.mcpRaw = Except.error e →
        parallel_search_coordinator se query strat mr ffp = Except.ok ⟨[]⟩) := by
  intro se query strat mr ffp
  constructor
  · unfold parallel_search_coordinator
    dsimp only
    by_cases hs : strat = "mcp"
    · rw [if_pos hs]
      rcases h : se.mcpRaw with p | e <;>
        simp [mcp_search_sync, mcp_search, isOkE, h]
    · rw [if_neg hs]
      rcases h : se.searxRaw with hits | e <;>
        simp [web_search_only, searxng_search, isOkE, h]
  · intro e hs he
    subst hs
    unfold parallel_search_coordinator
    simp [mcp_search_sync, mcp_search, he]

/-- Search environment whose MCP endpoint raises while the web endpoint has
a hit available. -/
def mcpDownEnv : SearchEnv :=
  ⟨Except.ok [⟨some "Hit", some "https://w", some "snippet"⟩],
   Except.error ⟨false, "mcp down"⟩,
   fun _ => none⟩

/-- C3 counterexample: with the MCP endpoint raising and the web endpoint
able to return a hit, the coordinator on the mcp strategy surfaces the empty
result set — the plain web-search path, which would have returned the hit,
is never retried, contradicting the claimed retry-once behaviour. -/
theorem C3_search_coordinator_counterexample :
    parallel_search_coordinator mcpDownEnv "q" "mcp" 8 false = Except.ok ⟨[]⟩ ∧
    web_search_only mcpDownEnv "q" 8 false =
      Except.ok ⟨[⟨"https://w", "Hit", some "snippet", some "snippet"⟩]⟩ := by
  constructor <;> rfl

/-- C3 witness: the amended theorem applied at the concrete failing MCP
environment. -/
theorem C3_search_coordinator_witness :
    isOkE (parallel_search_coordinator mcpDownEnv "w" "mcp" 8 false) = true ∧
    parallel_search_coordinator mcpDownEnv "w" "mcp" 8 false = Except.ok ⟨[]⟩ :=
  ⟨(C3_search_coordinator_amended mcpDownEnv "w" "mcp" 8 false).1,
   (C3_search_coordinator_amended mcpDownEnv "w" "mcp" 8 false).2
      ⟨false, "mcp down"⟩ rfl rfl⟩

lemma summarize_update_keeps {b : Bool} {fuel : Nat} {r : String} {s s1 : SummaryState}
    (h : summarize_update b fuel r s = some s1) :
    s1.verification_questions = s.verification_questions ∧
    s1.verification_results = s.verification_results ∧
    s1.input_analysis = s.input_analysis := by
  unfold summarize_update at h
  rcases Option.map_eq_some'.mp h with ⟨x, -, rfl⟩
  exact ⟨rfl, rfl, rfl⟩

@[simp] lemma finalUpd_vq (env : Env) (k : Nat) (s : SummaryState) :
    (finalUpd env k s).verification_questions = s.verification_questions := rfl

@[simp] lemma finalUpd_vr (env : Env) (k : Nat) (s : SummaryState) :
    (finalUpd env k s).verification_results = s.verification_results := rfl

@[simp] lemma fetchUpd_vq (env : Env) (k : Nat) (s : SummaryState) :
    (fetchUpd env k s).verification_questions = s.verification_questions := by
  unfold fetchUpd
  cases s.input_analysis.url with
  | none => rfl
  | some u => cases env.urlFetchAt k with
    | none => rfl
    | some uc => rfl

@[simp] lemma fetchUpd_vr (env : Env) (k : Nat) (s : SummaryState) :
    (fetchUpd env k s).verification_results = s.verification_results := by
  unfold fetchUpd
  cases s.input_analysis.url with
  | none => rfl
  | some u => cases env.urlFetchAt k with
    | none => rfl
    | some uc => rfl

lemma run_end (f : Nat) (cfg : Configuration) (env : Env) (s : SummaryState) (k : Nat) :
    run f cfg env ⟨Node.endN, s, k⟩ = some (s, []) := by
  cases f <;> simp [run]

/-- From the summarization node of a direct URL request, a completed run
executes exactly summarize then finalize, preserving the verification
channels. -/
lemma run_summarize_direct (f : Nat) (cfg : Configuration) (env : Env) (k : Nat)
    (s : SummaryState) (hd : s.input_analysis.direct_fetch = true)
    (p : SummaryState × List Node)
    (hrun : run f cfg env ⟨Node.summarizeSourcesN, s, k⟩ = some p) :
    p.2 = [Node.summarizeSourcesN, Node.finalizeSummaryN] ∧
    p.1.verification_questions = s.verification_questions ∧
    p.1.verification_results = s.verification_results := by
  cases f with
  | zero => simp [run] at hrun
  | succ f1 =>
    simp only [run] at hrun
    rw [if_neg (by decide)] at hrun
    simp only [step] at hrun
    rcases hsum : summarize_update cfg.strip_thinking (f1 + 1) (env.llmSummary k) s with _ | s3
    · rw [hsum] at hrun
      simp at hrun
    · rw [hsum] at hrun
      simp only [Option.map_some'] at hrun
      obtain ⟨hvq, hvr, hana⟩ := summarize_update_keeps hsum
      have hroute : route_after_summarize s3 = Node.finalizeSummaryN := by
        rw [route_after_summarize_eq, hana, hd]
        rfl
      rw [hroute] at hrun
      rcases Option.map_eq_some'.mp hrun with ⟨p1, hrun1, heq1⟩
      subst heq1
      cases f1 with
      | zero => simp [run] at hrun1
      | succ f2 =>
        simp only [run] at hrun1
        rw [if_neg (by decide)] at hrun1
        simp only [step] at hrun1
        rcases Option.map_eq_some'.mp hrun1 with ⟨p2, hrun2, heq2⟩
        subst heq2
        rw [run_end] at hrun2
        injection hrun2 with h2
        subst h2
        refine ⟨rfl, ?_, ?_⟩
        · dsimp only
          rw [finalUpd_vq, hvq]
        · dsimp only
          rw [finalUpd_vr, hvr]

/-- C6: for a session whose topic analysis has a URL and a direct-content
request (hence strategy url_fetch with isDirectFetch true), every completed
run executes exactly classify → fetch → summarize → finalize, so the
verification and reflection nodes are never entered and both verification
channels are empty at session end. -/
theorem C6_direct_fetch_fast_path (fuel : Nat) (cfg : Configuration) (env : Env)
    (topic : String) (p : SummaryState × List Node)
    (hdir : (analyze_user_input topic).direct_fetch = true)
    (hrun : run fuel cfg env (initMach topic) = some p) :
    p.2 = [Node.classifyIntentN, Node.fetchUrlContentN, Node.summarizeSourcesN,
           Node.finalizeSummaryN] ∧
    p.1.verification_questions = [] ∧ p.1.verification_results = [] := by
  cases fuel with
  | zero => simp [run, initMach] at hrun
  | succ f =>
    simp only [run, initMach] at hrun
    rw [if_neg (by decide)] at hrun
    simp only [step, Nat.zero_add] at hrun
    have hcs : classify_strategy topic = "url_fetch" :=
      classify_strategy_url_of_direct topic hdir
    have hroute1 : route_after_intent (classifyUpd (initState topic)) =
        Node.fetchUrlContentN := by
      unfold route_after_intent
      simp [classifyUpd_init_strategy, hcs]
    rw [hroute1] at hrun
    rcases Option.map_eq_some'.mp hrun with ⟨p1, hrun1, heq1⟩
    subst heq1
    cases f with
    | zero => simp [run] at hrun1
    | succ f2 =>
      simp only [run] at hrun1
      rw [if_neg (by decide)] at hrun1
      simp only [step, Nat.zero_add] at hrun1
      have hroute2 : route_after_url_fetch (fetchUpd env 1 (classifyUpd (initState topic))) =
          Node.summarizeSourcesN := by
        unfold route_after_url_fetch
        rw [fetchUpd_analysis]
        simp [classifyUpd_init_analysis, hdir]
      rw [hroute2] at hrun1
      rcases Option.map_eq_some'.mp hrun1 with ⟨p2, hrun2, heq2⟩
      subst heq2
      have hd2 : (fetchUpd env 1 (classifyUpd (initState topic))).input_analysis.direct_fetch =
          true := by
        rw [fetchUpd_analysis]
        simpa [classifyUpd_init_analysis] using hdir
      have hmain := run_summarize_direct f2 cfg env _ _ hd2 p2 hrun2
      refine ⟨?_, ?_, ?_⟩
      · dsimp only
        rw [hmain.1]
      · dsimp only
        rw [hmain.2.1, fetchUpd_vq]
        rfl
      · dsimp only
        rw [hmain.2.2, fetchUpd_vr]
        rfl

/-- C6 witness: a concrete direct URL-explain session runs the four-node
fast path with both verification channels empty. -/
theorem C6_direct_fetch_fast_path_witness :
    (match run 10 cfgMax3 demoEnv (initMach "summarize this link https://x") with
     | some p =>
       p.2 = [Node.classifyIntentN, Node.fetchUrlContentN, Node.summarizeSourcesN,
              Node.finalizeSummaryN] ∧
       p.1.verification_questions = [] ∧ p.1.verification_results = []
     | none => False) := by
  rcases heq : run 10 cfgMax3 demoEnv (initMach "summarize this link https://x") with _ | p
  · exact absurd heq (by decide)
  · exact C6_direct_fetch_fast_path 10 cfgMax3 demoEnv "summarize this link https://x" p
      (by decide) heq
